import Mathlib

/-!
Verification development for the Snowflake metrology analytics pipeline
(`metrology_analytics.py`): a record generator, a batch loader and a lot
aggregator over a `wafer_metrology` warehouse table.

The warehouse store is modelled as the list of rows of the single table
`wafer_metrology`; the three SQL statements the script issues (CREATE OR
REPLACE TABLE, parameterized INSERT, and the grouped SELECT) are given their
standard SQL semantics over that list.  Python exceptions are modelled with
`Except`: a function whose body may raise returns `.error e` exactly when an
exception escapes it; the script's `try/except` blocks that print and fall
through are therefore modelled as returning `.ok`.  Randomness
(`random.uniform`, `random.randint`) and the wall clock (`datetime.utcnow`)
are modelled as explicit draw functions indexed by the step number.
-/

namespace Metrology

/-- One measurement event, mirroring the tuple
`(wafer_id, lot_id, process_step, timestamp, measurement, defect_count)`
built by `generate_wafer_metrology_data`.  `lineWidthNm` is modelled as a
rational (the float arithmetic involved — `round(x, 2)` on values in a unit
interval — is exact at this granularity for the properties considered). -/
structure MetrologyRecord where
  waferId : String
  lotId : String
  processStep : String
  eventTimestamp : Nat
  lineWidthNm : ℚ
  defectCount : Nat
deriving DecidableEq

/-! ### Decimal formatting (Python `f"{n:02d}"`)

Python's `d` format renders the standard decimal representation; `02` pads it
with zeros on the left to a minimum width of 2.  We compute the decimal
digits with an explicit structural recursion (fuel-indexed so that it
reduces in the kernel). -/

/-- Least-significant-first decimal digits of `n`, with `fuel` recursion
budget (`fuel = n` always suffices). -/
def natDigitsRev : Nat → Nat → List Nat
  | 0, _ => []
  | fuel + 1, n => if n = 0 then [] else n % 10 :: natDigitsRev fuel (n / 10)

/-- Standard decimal representation of a natural number. -/
def decimalRepr (n : Nat) : String :=
  if n = 0 then "0"
  else String.mk (((natDigitsRev n n).reverse).map Nat.digitChar)

/-- Python format spec `02d`: zero-pad the decimal representation to a
minimum width of 2. -/
def fmt02 (n : Nat) : String :=
  if n < 10 then "0" ++ decimalRepr n else decimalRepr n

/-- The process-step label `f"Step_{step:02d}"`. -/
def stepLabel (step : Nat) : String := "Step_" ++ fmt02 step

/-! ### Record generator (`generate_wafer_metrology_data`) -/

/-- Python `round(x, 2)` to two decimal digits.  (Python rounds ties to
even; `round` here rounds ties up — the two agree except on exact ties,
which affects none of the verified properties, all of which hold for any
tie-breaking.) -/
def round2 (x : ℚ) : ℚ := (round (x * 100) : ℤ) / 100

/-- `generate_wafer_metrology_data(wafer_id, lot_id, num_steps)`: one record
per step `0 .. num_steps-1`, with `processStep = f"Step_{step:02d}"`,
`lineWidthNm = round(random.uniform(50.5, 51.5), 2)` and
`defectCount = random.randint(0, 5)`.  `uniformDraw step`, `randintDraw step`
and `utcnow step` are the values produced by the random source and the clock
at iteration `step`. -/
def generate_wafer_metrology_data (wafer_id lot_id : String) (num_steps : Nat)
    (uniformDraw : Nat → ℚ) (randintDraw : Nat → Nat) (utcnow : Nat → Nat) :
    List MetrologyRecord :=
  (List.range num_steps).map fun step =>
    { waferId := wafer_id
      lotId := lot_id
      processStep := stepLabel step
      eventTimestamp := utcnow step
      lineWidthNm := round2 (uniformDraw step)
      defectCount := randintDraw step }

/-! ### Warehouse client calls and Python exceptions -/

/-- Response of the warehouse client to one cursor call: it either succeeds
or raises an exception carrying message `e`. -/
inductive CallResult where
  | ok
  | raises (e : String)
deriving DecidableEq

/-- One call made to the warehouse client: `cur.execute(statement)` or the
bulk `cur.executemany(statement, rows)`. -/
inductive ClientCall where
  | exec (statement : String)
  | execBatch (statement : String) (rows : List MetrologyRecord)
deriving DecidableEq

/-! ### Statement texts

These reproduce the exact Python string literals (triple-quoted strings keep
their leading newline and indentation; `\x27` is the single-quote
character). -/

/-- The `CREATE OR REPLACE TABLE` DDL in `create_metrology_table`. -/
def createTableStatement : String :=
  "\n    CREATE OR REPLACE TABLE wafer_metrology (\n        WAFER_ID VARCHAR(255),\n        LOT_ID VARCHAR(255),\n        PROCESS_STEP VARCHAR(255),\n        EVENT_TIMESTAMP TIMESTAMP_NTZ,\n        LINE_WIDTH_NM FLOAT,\n        DEFECT_COUNT INTEGER\n    );\n    "

/-- The parameterized `INSERT` statement in `ingest_data_into_snowflake`
(the row values travel separately as `%s` bind parameters). -/
def insertStatement : String :=
  "\n    INSERT INTO wafer_metrology (\n        WAFER_ID,\n        LOT_ID,\n        PROCESS_STEP,\n        EVENT_TIMESTAMP,\n        LINE_WIDTH_NM,\n        DEFECT_COUNT\n    ) VALUES (%s, %s, %s, %s, %s, %s);\n    "

/-- The analysis query text built by `run_metrology_analysis`: an f-string
that interpolates `lot_id` directly into the SQL text. -/
def analysisQueryStatement (lot_id : String) : String :=
  "\n    SELECT\n        PROCESS_STEP,\n        AVG(DEFECT_COUNT) AS AVG_DEFECTS,\n        AVG(LINE_WIDTH_NM) AS AVG_LINE_WIDTH\n    FROM\n        wafer_metrology\n    WHERE\n        LOT_ID = \x27" ++ lot_id ++ "\x27\n    GROUP BY\n        PROCESS_STEP\n    ORDER BY\n        AVG_DEFECTS DESC;\n    "

/-! ### Semantics of the analysis query

Standard SQL semantics of the SELECT statement above over the table rows:
filter on `LOT_ID`, group by `PROCESS_STEP`, take the arithmetic mean of
`DEFECT_COUNT` and `LINE_WIDTH_NM` per group, order by the first mean
descending.  The enumeration order of the GROUP BY keys and the relative
order of tied groups are engine-chosen (deterministic per execution but
otherwise unspecified); they are modelled here by `List.dedup` and a stable
insertion sort. -/

/-- Sum of a list of rationals. -/
def ratSum (l : List ℚ) : ℚ := l.foldr (fun a b => a + b) 0

/-- Arithmetic mean (SQL `AVG`) of a list of rationals. -/
def mean (l : List ℚ) : ℚ := ratSum l / (l.length : ℚ)

/-- One result row `(PROCESS_STEP, AVG_DEFECTS, AVG_LINE_WIDTH)`. -/
structure AggregateRow where
  processStep : String
  avgDefects : ℚ
  avgLineWidth : ℚ
deriving DecidableEq

/-- The rows satisfying the `WHERE LOT_ID = ...` clause. -/
def matchingRows (table : List MetrologyRecord) (lot_id : String) :
    List MetrologyRecord :=
  table.filter (fun r => r.lotId = lot_id)

/-- The aggregate row for the group with `PROCESS_STEP = s` among `rows`. -/
def groupRow (rows : List MetrologyRecord) (s : String) : AggregateRow :=
  let g := rows.filter (fun r => r.processStep = s)
  { processStep := s
    avgDefects := mean (g.map (fun r => (r.defectCount : ℚ)))
    avgLineWidth := mean (g.map (fun r => r.lineWidthNm)) }

/-- The `ORDER BY AVG_DEFECTS DESC` order: `a` may precede `b` when
`b.avgDefects ≤ a.avgDefects`. -/
def aggDescOrder (a b : AggregateRow) : Prop := b.avgDefects ≤ a.avgDefects

instance : DecidableRel aggDescOrder :=
  fun a b => (inferInstance : Decidable (b.avgDefects ≤ a.avgDefects))

instance : IsTotal AggregateRow aggDescOrder :=
  ⟨fun a b => le_total b.avgDefects a.avgDefects⟩

instance : IsTrans AggregateRow aggDescOrder :=
  ⟨fun _ _ _ h1 h2 => le_trans h2 h1⟩

/-- Result table of the analysis query over the stored rows. -/
def analysisQueryResult (table : List MetrologyRecord) (lot_id : String) :
    List AggregateRow :=
  let m := matchingRows table lot_id
  List.insertionSort aggDescOrder
    (((m.map (fun r => r.processStep)).dedup).map (groupRow m))

/-! ### Table creation (`create_metrology_table`) -/

/-- `create_metrology_table(conn)`: issues the CREATE OR REPLACE statement.
On success the table is replaced by an empty one (all previously stored rows
are dropped); a raised error is caught and printed, leaving the table as it
was.  Returns the calls made and the table contents afterwards. -/
def create_metrology_table (table : List MetrologyRecord)
    (client : CallResult) : List ClientCall × List MetrologyRecord :=
  ([ClientCall.exec createTableStatement],
    match client with
    | CallResult.ok => []
    | CallResult.raises _ => table)

/-! ### Batch loader (`ingest_data_into_snowflake`) -/

/-- Observable outcome of one `ingest_data_into_snowflake(conn, data)` call.
`retval` is the Python control result: `Except.ok v` means the function
returned `v` normally, `Except.error e` would mean an exception escaped it.
The function body has no `return` statement, so a normal return yields
`none` (Python `None`). -/
structure IngestOutcome where
  calls : List ClientCall
  printed : String
  retval : Except String (Option Nat)
  table : List MetrologyRecord

/-- `ingest_data_into_snowflake(conn, data)`: unconditionally performs one
`cur.executemany(query, data)` call; the surrounding `try/except Exception`
catches any raised error and prints it, so the function always returns
`None` — on success after printing the ingested count, on failure after
printing the error message.  A successful batch appends its rows to the
table; a failed one stores nothing. -/
def ingest_data_into_snowflake (table : List MetrologyRecord)
    (client : CallResult) (data : List MetrologyRecord) : IngestOutcome :=
  { calls := [ClientCall.execBatch insertStatement data]
    printed :=
      match client with
      | CallResult.ok =>
          "✅ Successfully ingested " ++ decimalRepr data.length ++ " records."
      | CallResult.raises e => "❌ Error ingesting data: " ++ e
    retval := Except.ok none
    table :=
      match client with
      | CallResult.ok => table ++ data
      | CallResult.raises _ => table }

/-! ### Lot aggregator (`run_metrology_analysis`) -/

/-- Observable outcome of one `run_metrology_analysis(conn, lot_id)` call.
`displayed` is the fetched result table printed as a DataFrame (`none` when
the query raised); `retval` as in `IngestOutcome`. -/
structure AnalysisOutcome where
  statements : List String
  printed : List String
  displayed : Option (List AggregateRow)
  retval : Except String (Option Nat)
  table : List MetrologyRecord

/-- `run_metrology_analysis(conn, lot_id)`: builds the query by f-string
interpolation of `lot_id`, issues it once via `cur.execute`, and on success
fetches and prints the result table.  The `try/except Exception` catches any
raised error and prints it, so the function always returns `None`.  A SELECT
statement reads the table without modifying it. -/
def run_metrology_analysis (table : List MetrologyRecord)
    (client : CallResult) (lot_id : String) : AnalysisOutcome :=
  { statements := [analysisQueryStatement lot_id]
    printed :=
      match client with
      | CallResult.ok =>
          ["\n--- Running Analysis for Lot \x27" ++ lot_id ++ "\x27 ---",
            "📈 Simulated Analysis Results:"]
      | CallResult.raises e =>
          ["\n--- Running Analysis for Lot \x27" ++ lot_id ++ "\x27 ---",
            "❌ Error running analysis query: " ++ e]
    displayed :=
      match client with
      | CallResult.ok => some (analysisQueryResult table lot_id)
      | CallResult.raises _ => none
    retval := Except.ok none
    table := table }

/-! ### Main flow (`__main__`)

After connecting and setting the session context, the script creates (or
replaces) the table, generates and ingests 5 wafers of 10 steps each for lot
`LOT_A_2025`, and runs the analysis once.  `prev` is whatever the table held
before this run (e.g. the rows of a previous run);  the draw functions take
the wafer index first, then the step. -/

/-- The lot identifier hard-coded in `__main__`. -/
def mainLotId : String := "LOT_A_2025"

/-- One full run of the `__main__` pipeline (success path of every call),
returning the outcome of the final analysis. -/
def mainRun (prev : List MetrologyRecord)
    (uniformDraw : Nat → Nat → ℚ) (randintDraw : Nat → Nat → Nat)
    (utcnow : Nat → Nat → Nat) : AnalysisOutcome :=
  let t0 := (create_metrology_table prev CallResult.ok).2
  let wafers := (List.range 5).map fun i =>
    generate_wafer_metrology_data ("WAFER_" ++ fmt02 (i + 1)) mainLotId 10
      (uniformDraw i) (randintDraw i) (utcnow i)
  let t1 := wafers.foldl
    (fun t d => (ingest_data_into_snowflake t CallResult.ok d).table) t0
  run_metrology_analysis t1 CallResult.ok mainLotId

/-- Value of the reversed digit list, used to invert `natDigitsRev`. -/
def undigits : List Nat → Nat
  | [] => 0
  | d :: ds => d + 10 * undigits ds

/-- A sample stored record, used to exercise the models on concrete
inputs. -/
def sampleRecord : MetrologyRecord :=
  { waferId := "WAFER_01"
    lotId := "LOT_A_2025"
    processStep := "Step_00"
    eventTimestamp := 0
    lineWidthNm := 51
    defectCount := 2 }

/-- The single record produced by
`generate_wafer_metrology_data "W" "L" 1` with constant draws
`uniform = 51`, `randint = 3` and clock `0`. -/
def sampleGenRecord : MetrologyRecord :=
  { waferId := "W"
    lotId := "L"
    processStep := stepLabel 0
    eventTimestamp := 0
    lineWidthNm := round2 51
    defectCount := 3 }

/-! ## Lemmas about the decimal step-label format -/

theorem undigits_natDigitsRev :
    ∀ fuel n, n ≤ fuel → undigits (natDigitsRev fuel n) = n := by
  intro fuel
  induction fuel with
  | zero =>
    intro n hn
    have h0 : n = 0 := Nat.le_zero.mp hn
    subst h0
    rfl
  | succ f ih =>
    intro n hn
    by_cases h : n = 0
    · subst h; rfl
    · have hdiv : n / 10 ≤ f := by
        have : n / 10 < n := Nat.div_lt_self (Nat.pos_of_ne_zero h) (by omega)
        omega
      simp only [natDigitsRev, h, if_false, undigits]
      rw [ih (n / 10) hdiv]
      omega

theorem natDigitsRev_all_lt :
    ∀ fuel n, ∀ d ∈ natDigitsRev fuel n, d < 10 := by
  intro fuel
  induction fuel with
  | zero => intro n d hd; simp [natDigitsRev] at hd
  | succ f ih =>
    intro n d hd
    by_cases h : n = 0
    · subst h; simp [natDigitsRev] at hd
    · simp only [natDigitsRev, h, if_false, List.mem_cons] at hd
      rcases hd with hd | hd
      · subst hd; exact Nat.mod_lt _ (by omega)
      · exact ih (n / 10) d hd

theorem digitChar_inj :
    ∀ a, a < 10 → ∀ b, b < 10 → Nat.digitChar a = Nat.digitChar b → a = b := by
  decide

theorem map_digitChar_inj :
    ∀ L1 L2 : List Nat, (∀ d ∈ L1, d < 10) → (∀ d ∈ L2, d < 10) →
      L1.map Nat.digitChar = L2.map Nat.digitChar → L1 = L2 := by
  intro L1
  induction L1 with
  | nil => intro L2 _ _ h; cases L2 <;> simp at h ⊢
  | cons a t ih =>
    intro L2 h1 h2 h
    cases L2 with
    | nil => simp at h
    | cons b t2 =>
      simp only [List.map_cons, List.cons.injEq] at h
      have ha : a < 10 := h1 a (List.mem_cons_self a t)
      have hb : b < 10 := h2 b (List.mem_cons_self b t2)
      have hab : a = b := digitChar_inj a ha b hb h.1
      have ht : t = t2 := by
        refine ih t2 (fun d hd => h1 d (List.mem_cons_of_mem _ hd))
          (fun d hd => h2 d (List.mem_cons_of_mem _ hd)) h.2
      rw [hab, ht]

theorem string_data_inj (s t : String) (h : s.data = t.data) : s = t :=
  congrArg String.mk h

theorem decimalRepr_ne_zero_str (n : Nat) (hn : n ≠ 0) : decimalRepr n ≠ "0" := by
  intro h
  unfold decimalRepr at h
  rw [if_neg hn] at h
  have hd := congrArg String.data h
  simp only [String.data] at hd
  have : (natDigitsRev n n).reverse = [0] := by
    refine map_digitChar_inj _ [0] ?_ ?_ ?_
    · intro d hdm
      exact natDigitsRev_all_lt n n d (List.mem_reverse.mp hdm)
    · intro d hdm; simp at hdm; omega
    · exact hd.trans rfl
  have hrev : natDigitsRev n n = [0] := by
    have := congrArg List.reverse this
    simpa using this
  have := undigits_natDigitsRev n n (le_refl n)
  rw [hrev] at this
  simp [undigits] at this
  exact hn this.symm

theorem decimalRepr_inj : ∀ m n, decimalRepr m = decimalRepr n → m = n := by
  intro m n h
  by_cases hm : m = 0
  · by_cases hn : n = 0
    · rw [hm, hn]
    · subst hm
      exact absurd h.symm (decimalRepr_ne_zero_str n hn)
  · by_cases hn : n = 0
    · subst hn
      exact absurd h (decimalRepr_ne_zero_str m hm)
    · unfold decimalRepr at h
      rw [if_neg hm, if_neg hn] at h
      have hd := congrArg String.data h
      simp only [String.data] at hd
      have hmaps : (natDigitsRev m m).reverse = (natDigitsRev n n).reverse := by
        refine map_digitChar_inj _ _ ?_ ?_ hd
        · intro d hdm
          exact natDigitsRev_all_lt m m d (List.mem_reverse.mp hdm)
        · intro d hdm
          exact natDigitsRev_all_lt n n d (List.mem_reverse.mp hdm)
      have hlists : natDigitsRev m m = natDigitsRev n n :=
        List.reverse_injective hmaps
      have h1 := undigits_natDigitsRev m m (le_refl m)
      have h2 := undigits_natDigitsRev n n (le_refl n)
      rw [hlists] at h1
      omega

theorem natDigitsRev_leading :
    ∀ fuel n, 1 ≤ n → n ≤ fuel →
      ∃ L d, natDigitsRev fuel n = L ++ [d] ∧ d ≠ 0 ∧ d < 10 := by
  intro fuel
  induction fuel with
  | zero => intro n h1 h2; omega
  | succ f ih =>
    intro n h1 h2
    have hne : n ≠ 0 := by omega
    by_cases hq : n / 10 = 0
    · refine ⟨[], n % 10, ?_, ?_, Nat.mod_lt _ (by omega)⟩
      · simp only [natDigitsRev, hne, if_false]
        have hz : natDigitsRev f (n / 10) = [] := by
          rw [hq]; cases f <;> rfl
        rw [hz]
        rfl
      · have : n < 10 := by omega
        omega
    · have hq1 : 1 ≤ n / 10 := Nat.pos_of_ne_zero hq
      have hqf : n / 10 ≤ f := by
        have : n / 10 < n := Nat.div_lt_self (by omega) (by omega)
        omega
      obtain ⟨L, d, hLd, hd0, hd10⟩ := ih (n / 10) hq1 hqf
      refine ⟨n % 10 :: L, d, ?_, hd0, hd10⟩
      simp only [natDigitsRev, hne, if_false, hLd]
      rfl

theorem zero_pad_ne_big (m n : Nat) (_hm : m < 10) (hn : 10 ≤ n) :
    "0" ++ decimalRepr m ≠ decimalRepr n := by
  intro h
  have hd := congrArg String.data h
  rw [String.data_append] at hd
  obtain ⟨L, d, hLd, hd0, hd10⟩ := natDigitsRev_leading n n (by omega) (le_refl n)
  have hnn : n ≠ 0 := by omega
  unfold decimalRepr at hd
  rw [if_neg hnn] at hd
  simp only [String.data, hLd, List.map_append, List.reverse_append] at hd
  have hhead : '0' = Nat.digitChar d := by
    simpa using congrArg List.head? hd
  have : (0 : Nat) = d := digitChar_inj 0 (by omega) d hd10 hhead
  exact hd0 this.symm

theorem fmt02_inj : ∀ m n, fmt02 m = fmt02 n → m = n := by
  intro m n h
  unfold fmt02 at h
  by_cases hm : m < 10 <;> by_cases hn : n < 10
  · rw [if_pos hm, if_pos hn] at h
    have hd := congrArg String.data h
    rw [String.data_append, String.data_append] at hd
    have := (List.append_right_inj (("0" : String).data)).mp hd
    exact decimalRepr_inj m n (string_data_inj _ _ this)
  · rw [if_pos hm, if_neg hn] at h
    exact absurd h (zero_pad_ne_big m n hm (by omega))
  · rw [if_neg hm, if_pos hn] at h
    exact absurd h.symm (zero_pad_ne_big n m hn (by omega))
  · rw [if_neg hm, if_neg hn] at h
    exact decimalRepr_inj m n h

theorem stepLabel_inj : ∀ m n, stepLabel m = stepLabel n → m = n := by
  intro m n h
  unfold stepLabel at h
  have hd := congrArg String.data h
  rw [String.data_append, String.data_append] at hd
  have := (List.append_right_inj (("Step_" : String).data)).mp hd
  exact fmt02_inj m n (string_data_inj _ _ this)

set_option maxHeartbeats 4000000 in
set_option maxRecDepth 20000 in
theorem stepLabel_toList_lt_of_lt :
    ∀ i, i < 100 → ∀ j, j < 100 → i < j →
      (stepLabel i).toList < (stepLabel j).toList := by
  decide

theorem stepLabel_lt_of_lt :
    ∀ i, i < 100 → ∀ j, j < 100 → i < j → stepLabel i < stepLabel j :=
  fun i hi j hj hij =>
    String.lt_iff_toList_lt.mpr (stepLabel_toList_lt_of_lt i hi j hj hij)

/-- C4: for every waferId, lotId and stepCount `N`, the generator returns
exactly `N` records, one per step index `0 .. N-1`; their `processStep`
labels are the zero-padded ordinals `Step_00 .. Step_(N-1)` (label of record
`i` is `stepLabel i`), pairwise distinct, and for `stepCount ≤ 100` the
label order (lexicographic string order) agrees with the numeric step
order. -/
theorem generate_stepcount_distinct_ordered_labels
    (wafer_id lot_id : String) (N : Nat)
    (u : Nat → ℚ) (ri : Nat → Nat) (ck : Nat → Nat) :
    (generate_wafer_metrology_data wafer_id lot_id N u ri ck).length = N ∧
    ((generate_wafer_metrology_data wafer_id lot_id N u ri ck).map
        (fun r => r.processStep)) = (List.range N).map stepLabel ∧
    (((generate_wafer_metrology_data wafer_id lot_id N u ri ck).map
        (fun r => r.processStep)).Nodup) ∧
    (N ≤ 100 →
      ((generate_wafer_metrology_data wafer_id lot_id N u ri ck).map
        (fun r => r.processStep)).Pairwise (fun a b => a < b)) := by
  have hmap : (generate_wafer_metrology_data wafer_id lot_id N u ri ck).map
      (fun r => r.processStep) = (List.range N).map stepLabel := by
    simp [generate_wafer_metrology_data, List.map_map]
  have hinj : Function.Injective stepLabel := fun a b h => stepLabel_inj a b h
  refine ⟨?_, hmap, ?_, ?_⟩
  · simp [generate_wafer_metrology_data]
  · rw [hmap]
    exact List.Nodup.map hinj (List.nodup_range N)
  · intro hN
    rw [hmap, List.pairwise_map]
    refine List.Pairwise.imp_of_mem ?_ (List.pairwise_lt_range N)
    intro a b ha hb hab
    exact stepLabel_lt_of_lt a (by have := List.mem_range.mp ha; omega)
      b (by have := List.mem_range.mp hb; omega) hab

/-! ## Lemmas about the generated measurement values -/

theorem round2_bounds (x : ℚ) (h1 : (50.5 : ℚ) ≤ x) (h2 : x ≤ 51.5) :
    (50.5 : ℚ) ≤ round2 x ∧ round2 x ≤ 51.5 ∧ (round2 x * 100).den = 1 := by
  have hlo : (5050 : ℤ) ≤ round (x * 100) := by
    rw [round_eq]
    refine Int.le_floor.mpr ?_
    push_cast
    linarith
  have hhi : round (x * 100) ≤ 5150 := by
    rw [round_eq]
    have hlt : ⌊x * 100 + 1 / 2⌋ < (5151 : ℤ) := by
      refine Int.floor_lt.mpr ?_
      push_cast
      linarith
    omega
  have hcast1 : ((5050 : ℤ) : ℚ) ≤ ((round (x * 100) : ℤ) : ℚ) := by
    exact_mod_cast hlo
  have hcast2 : ((round (x * 100) : ℤ) : ℚ) ≤ ((5150 : ℤ) : ℚ) := by
    exact_mod_cast hhi
  refine ⟨?_, ?_, ?_⟩
  · unfold round2
    push_cast at hcast1
    linarith
  · unfold round2
    push_cast at hcast2
    linarith
  · unfold round2
    rw [div_mul_cancel₀ _ (by norm_num : (100 : ℚ) ≠ 0)]
    exact Rat.den_intCast _

/-- C5: every record produced by the generator has an integer
`defectCount` with `0 ≤ defectCount ≤ 5` (the lower bound is inherent to the
`Nat` field) and a `lineWidthNm` in `[50.5, 51.5]` that is rounded to 2
decimal digits (i.e. `lineWidthNm * 100` is an integer).  The hypotheses are
the documented contracts of `random.uniform(50.5, 51.5)` and
`random.randint(0, 5)`. -/
theorem generate_value_ranges (wafer_id lot_id : String) (N : Nat)
    (u : Nat → ℚ) (ri : Nat → Nat) (ck : Nat → Nat)
    (hu : ∀ i, (50.5 : ℚ) ≤ u i ∧ u i ≤ 51.5)
    (hri : ∀ i, ri i ≤ 5) :
    ∀ r ∈ generate_wafer_metrology_data wafer_id lot_id N u ri ck,
      r.defectCount ≤ 5 ∧
      (50.5 : ℚ) ≤ r.lineWidthNm ∧ r.lineWidthNm ≤ 51.5 ∧
      (r.lineWidthNm * 100).den = 1 := by
  intro r hr
  simp only [generate_wafer_metrology_data, List.mem_map, List.mem_range] at hr
  obtain ⟨step, _hstep, rfl⟩ := hr
  obtain ⟨b1, b2, b3⟩ := round2_bounds (u step) (hu step).1 (hu step).2
  exact ⟨hri step, b1, b2, b3⟩

/-- Witness for C5 at the concrete input `N = 1` with constant draws. -/
theorem generate_value_ranges_witness :
    sampleGenRecord.defectCount ≤ 5 ∧
    (50.5 : ℚ) ≤ sampleGenRecord.lineWidthNm ∧
    sampleGenRecord.lineWidthNm ≤ 51.5 ∧
    (sampleGenRecord.lineWidthNm * 100).den = 1 :=
  generate_value_ranges "W" "L" 1 (fun _ => 51) (fun _ => 3) (fun _ => 0)
    (fun _ => ⟨by norm_num, by norm_num⟩) (fun _ => by norm_num)
    sampleGenRecord (by exact List.mem_singleton.mpr rfl)

/-! ## Lemmas about the analysis query semantics -/

theorem analysisQueryResult_perm (table : List MetrologyRecord)
    (lot_id : String) :
    (analysisQueryResult table lot_id).Perm
      ((((matchingRows table lot_id).map (fun r => r.processStep)).dedup).map
        (groupRow (matchingRows table lot_id))) :=
  List.perm_insertionSort _ _

theorem analysisQueryResult_sorted (table : List MetrologyRecord)
    (lot_id : String) :
    (analysisQueryResult table lot_id).Pairwise
      (fun a b => b.avgDefects ≤ a.avgDefects) :=
  List.sorted_insertionSort aggDescOrder _

theorem analysisQueryResult_mem_step (table : List MetrologyRecord)
    (lot_id s : String) :
    (∃ row ∈ analysisQueryResult table lot_id, row.processStep = s) ↔
      (∃ r ∈ table, r.lotId = lot_id ∧ r.processStep = s) := by
  constructor
  · rintro ⟨row, hrow, hstep⟩
    rw [(analysisQueryResult_perm table lot_id).mem_iff] at hrow
    obtain ⟨t, ht, hrowEq⟩ := List.mem_map.mp hrow
    have hss : t = s := by rw [← hstep, ← hrowEq]; rfl
    subst hss
    have hmem : t ∈ (matchingRows table lot_id).map (fun r => r.processStep) :=
      List.mem_dedup.mp ht
    obtain ⟨r, hr, hrs⟩ := List.mem_map.mp hmem
    have hrt := List.mem_filter.mp hr
    exact ⟨r, hrt.1, of_decide_eq_true hrt.2, hrs⟩
  · rintro ⟨r, hrt, hlot, hstep⟩
    refine ⟨groupRow (matchingRows table lot_id) s, ?_, rfl⟩
    rw [(analysisQueryResult_perm table lot_id).mem_iff]
    refine List.mem_map.mpr ⟨s, ?_, rfl⟩
    refine List.mem_dedup.mpr ?_
    refine List.mem_map.mpr ⟨r, ?_, hstep⟩
    exact List.mem_filter.mpr ⟨hrt, by simp [hlot]⟩

theorem analysisQueryResult_step_nodup (table : List MetrologyRecord)
    (lot_id : String) :
    ((analysisQueryResult table lot_id).map
      (fun row => row.processStep)).Nodup := by
  have hperm := (analysisQueryResult_perm table lot_id).map
    (fun row => row.processStep)
  rw [hperm.nodup_iff]
  rw [List.map_map]
  have hid : ∀ L : List String,
      L.map ((fun row => row.processStep) ∘
        groupRow (matchingRows table lot_id)) = L := by
    intro L
    induction L with
    | nil => rfl
    | cons a t ih => rw [List.map_cons, ih]; rfl
  rw [hid]
  exact List.nodup_dedup _

theorem matching_step_filter (table : List MetrologyRecord) (lot_id s : String) :
    (matchingRows table lot_id).filter (fun r => r.processStep = s) =
      table.filter (fun r => r.lotId = lot_id ∧ r.processStep = s) := by
  unfold matchingRows
  rw [List.filter_filter]
  refine List.filter_congr ?_
  intro r _
  rw [Bool.decide_and]
  exact Bool.and_comm _ _

theorem analysisQueryResult_avg (table : List MetrologyRecord)
    (lot_id : String) :
    ∀ row ∈ analysisQueryResult table lot_id,
      row.avgDefects = mean ((table.filter
          (fun r => r.lotId = lot_id ∧ r.processStep = row.processStep)).map
          (fun r => (r.defectCount : ℚ))) ∧
      row.avgLineWidth = mean ((table.filter
          (fun r => r.lotId = lot_id ∧ r.processStep = row.processStep)).map
          (fun r => r.lineWidthNm)) := by
  intro row hrow
  rw [(analysisQueryResult_perm table lot_id).mem_iff] at hrow
  obtain ⟨s, _hs, rfl⟩ := List.mem_map.mp hrow
  have hps : (groupRow (matchingRows table lot_id) s).processStep = s := rfl
  rw [hps]
  constructor
  · show mean (((matchingRows table lot_id).filter
        (fun r => r.processStep = s)).map (fun r => (r.defectCount : ℚ))) = _
    rw [matching_step_filter]
  · show mean (((matchingRows table lot_id).filter
        (fun r => r.processStep = s)).map (fun r => r.lineWidthNm)) = _
    rw [matching_step_filter]

theorem analysisQueryResult_empty (table : List MetrologyRecord)
    (lot_id : String) (h : ∀ r ∈ table, r.lotId ≠ lot_id) :
    analysisQueryResult table lot_id = [] := by
  have hm : matchingRows table lot_id = [] := by
    refine List.filter_eq_nil_iff.mpr ?_
    intro r hr
    simp [h r hr]
  unfold analysisQueryResult
  rw [hm]
  rfl

/-! ## Claim theorems about the pipeline operations -/

/-- C1: for every lotId, `run_metrology_analysis` issues exactly one query
(the single SELECT statement over all stored records with matching
`LOT_ID`); its result has, for each row, `avgDefects` equal to the mean of
`defectCount` and `avgLineWidth` equal to the mean of `lineWidthNm` over
all matching records of that `processStep` (zero defect counts included, no
outlier filtering), contains exactly the distinct process steps of the
matching records with no duplicates, and is ordered by `avgDefects`
descending. -/
theorem analysis_single_grouped_query (table : List MetrologyRecord)
    (client : CallResult) (lot_id : String) :
    (run_metrology_analysis table client lot_id).statements =
      [analysisQueryStatement lot_id] ∧
    (run_metrology_analysis table CallResult.ok lot_id).displayed =
      some (analysisQueryResult table lot_id) ∧
    (∀ row ∈ analysisQueryResult table lot_id,
      row.avgDefects = mean ((table.filter (fun r =>
          r.lotId = lot_id ∧ r.processStep = row.processStep)).map
          (fun r => (r.defectCount : ℚ))) ∧
      row.avgLineWidth = mean ((table.filter (fun r =>
          r.lotId = lot_id ∧ r.processStep = row.processStep)).map
          (fun r => r.lineWidthNm))) ∧
    (∀ s, (∃ row ∈ analysisQueryResult table lot_id, row.processStep = s) ↔
      (∃ r ∈ table, r.lotId = lot_id ∧ r.processStep = s)) ∧
    ((analysisQueryResult table lot_id).map
      (fun row => row.processStep)).Nodup ∧
    (analysisQueryResult table lot_id).Pairwise
      (fun a b => b.avgDefects ≤ a.avgDefects) :=
  ⟨rfl, rfl, analysisQueryResult_avg table lot_id,
    fun s => analysisQueryResult_mem_step table lot_id s,
    analysisQueryResult_step_nodup table lot_id,
    analysisQueryResult_sorted table lot_id⟩

/-- C2 evidence (code bug): when `executemany` raises, the `try/except` in
`ingest_data_into_snowflake` catches the exception and only prints it; the
function returns `None` exactly as in the success case, so the failure is
not passed upward to the caller at all. -/
theorem ingest_error_swallowed_eval :
    (ingest_data_into_snowflake [] (CallResult.raises "connection lost")
        [sampleRecord]).retval = Except.ok none ∧
    (ingest_data_into_snowflake [] (CallResult.raises "connection lost")
        [sampleRecord]).printed =
      "❌ Error ingesting data: connection lost" ∧
    (ingest_data_into_snowflake [] (CallResult.raises "connection lost")
        [sampleRecord]).retval =
      (ingest_data_into_snowflake [] CallResult.ok [sampleRecord]).retval :=
  ⟨rfl, rfl, rfl⟩

set_option maxRecDepth 20000 in
/-- C3 evidence (code bug): the analysis statement text is built by f-string
interpolation of `lot_id`, so the statement sent to the warehouse differs
between lot identifiers instead of being one fixed parameterized text. -/
theorem analysis_statement_depends_on_lot :
    (run_metrology_analysis [] CallResult.ok "LOT_A").statements ≠
      (run_metrology_analysis [] CallResult.ok "LOT_B").statements := by
  decide

/-- C6 counterexample: on the empty batch, `ingest_data_into_snowflake`
still performs one `executemany` call (with zero rows) and returns `None`,
not the count 0 the claim requires. -/
theorem ingest_empty_batch_counterexample :
    (ingest_data_into_snowflake [] CallResult.ok []).calls.length = 1 ∧
    (ingest_data_into_snowflake [] CallResult.ok []).calls =
      [ClientCall.execBatch insertStatement []] ∧
    (ingest_data_into_snowflake [] CallResult.ok []).retval =
      Except.ok none :=
  ⟨rfl, rfl, rfl⟩

/-- C6 amended: `ingest_data_into_snowflake` delegates every batch —
including the empty one — to exactly one `executemany` call carrying the
given rows; it reports the record count only in a printed message, returns
`None` rather than a count, and on success appends exactly the given rows
to the table. -/
theorem ingest_single_batch_prints_count (table data : List MetrologyRecord) :
    (ingest_data_into_snowflake table CallResult.ok data).calls =
      [ClientCall.execBatch insertStatement data] ∧
    (ingest_data_into_snowflake table CallResult.ok data).printed =
      "✅ Successfully ingested " ++ decimalRepr data.length ++ " records." ∧
    (ingest_data_into_snowflake table CallResult.ok data).retval =
      Except.ok none ∧
    (ingest_data_into_snowflake table CallResult.ok data).table =
      table ++ data :=
  ⟨rfl, rfl, rfl, rfl⟩

/-- C7 evidence (code bug): when the analytic query raises, the
`try/except` in `run_metrology_analysis` catches the exception and only
prints it; the function returns `None` exactly as on success, so the
failure is not surfaced and is indistinguishable, at the caller, from the
empty result (which also returns `None`). -/
theorem analysis_error_swallowed_eval :
    (run_metrology_analysis [] (CallResult.raises "store unreachable")
        "LOT_A_2025").retval = Except.ok none ∧
    (run_metrology_analysis [] (CallResult.raises "store unreachable")
        "LOT_A_2025").retval =
      (run_metrology_analysis [] CallResult.ok "LOT_A_2025").retval ∧
    (run_metrology_analysis [] CallResult.ok "LOT_A_2025").displayed =
      some [] ∧
    (run_metrology_analysis [] (CallResult.raises "store unreachable")
        "LOT_A_2025").displayed = none :=
  ⟨rfl, rfl, rfl, rfl⟩

/-- C8: after ingesting a batch, analysing a lotId matching no stored
record succeeds (returns normally) with an empty displayed result, while
analysing any lotId yields exactly one aggregate row per distinct
processStep among the matching records (no duplicates, none missing). -/
theorem roundtrip_ingest_analyze (table data : List MetrologyRecord)
    (lot_id other : String)
    (hother : ∀ r ∈ (ingest_data_into_snowflake table CallResult.ok
        data).table, r.lotId ≠ other) :
    (run_metrology_analysis
        (ingest_data_into_snowflake table CallResult.ok data).table
        CallResult.ok other).displayed = some [] ∧
    (run_metrology_analysis
        (ingest_data_into_snowflake table CallResult.ok data).table
        CallResult.ok other).retval = Except.ok none ∧
    (run_metrology_analysis
        (ingest_data_into_snowflake table CallResult.ok data).table
        CallResult.ok lot_id).displayed =
      some (analysisQueryResult
        (ingest_data_into_snowflake table CallResult.ok data).table lot_id) ∧
    ((analysisQueryResult
        (ingest_data_into_snowflake table CallResult.ok data).table
        lot_id).map (fun row => row.processStep)).Nodup ∧
    (∀ s, (∃ row ∈ analysisQueryResult
          (ingest_data_into_snowflake table CallResult.ok data).table lot_id,
        row.processStep = s) ↔
      (∃ r ∈ (ingest_data_into_snowflake table CallResult.ok data).table,
        r.lotId = lot_id ∧ r.processStep = s)) := by
  refine ⟨?_, rfl, rfl, analysisQueryResult_step_nodup _ _,
    fun s => analysisQueryResult_mem_step _ _ s⟩
  exact congrArg some (analysisQueryResult_empty
    (ingest_data_into_snowflake table CallResult.ok data).table other hother)

/-- Witness for C8 at a concrete input: one stored record for lot
`LOT_A_2025`, analysed for the unmatched lot `LOT_B` and the matching
lot. -/
theorem roundtrip_ingest_analyze_witness :
    (run_metrology_analysis
        (ingest_data_into_snowflake [] CallResult.ok [sampleRecord]).table
        CallResult.ok "LOT_B").displayed = some [] ∧
    (run_metrology_analysis
        (ingest_data_into_snowflake [] CallResult.ok [sampleRecord]).table
        CallResult.ok "LOT_B").retval = Except.ok none ∧
    (run_metrology_analysis
        (ingest_data_into_snowflake [] CallResult.ok [sampleRecord]).table
        CallResult.ok "LOT_A_2025").displayed =
      some (analysisQueryResult
        (ingest_data_into_snowflake [] CallResult.ok [sampleRecord]).table
        "LOT_A_2025") ∧
    ((analysisQueryResult
        (ingest_data_into_snowflake [] CallResult.ok [sampleRecord]).table
        "LOT_A_2025").map (fun row => row.processStep)).Nodup ∧
    (∀ s, (∃ row ∈ analysisQueryResult
          (ingest_data_into_snowflake [] CallResult.ok [sampleRecord]).table
          "LOT_A_2025",
        row.processStep = s) ↔
      (∃ r ∈ (ingest_data_into_snowflake [] CallResult.ok
          [sampleRecord]).table,
        r.lotId = "LOT_A_2025" ∧ r.processStep = s)) :=
  roundtrip_ingest_analyze [] [sampleRecord] "LOT_A_2025" "LOT_B" (by decide)

/-- C9: re-running the analysis with no intervening ingestion returns the
identical outcome, and neither call modifies the stored records (the SELECT
leaves the table exactly as it was). -/
theorem analyze_read_idempotent (table : List MetrologyRecord)
    (lot_id : String) :
    run_metrology_analysis
        (run_metrology_analysis table CallResult.ok lot_id).table
        CallResult.ok lot_id =
      run_metrology_analysis table CallResult.ok lot_id ∧
    (run_metrology_analysis table CallResult.ok lot_id).table = table :=
  ⟨rfl, rfl⟩

theorem foldl_ingest_table :
    ∀ (ws : List (List MetrologyRecord)) (t : List MetrologyRecord),
      ws.foldl (fun acc d =>
          (ingest_data_into_snowflake acc CallResult.ok d).table) t =
        t ++ ws.flatten := by
  intro ws
  induction ws with
  | nil => intro t; simp
  | cons d rest ih =>
    intro t
    rw [List.foldl_cons, ih]
    show (t ++ d) ++ rest.flatten = t ++ (d :: rest).flatten
    simp [List.append_assoc]

/-- C10: the pipeline's table setup is destructive — `CREATE OR REPLACE`
empties the table, so a full run produces the same outcome whatever the
table held before, and the table afterwards contains exactly the records
generated and ingested in this run (records never persist across runs). -/
theorem table_setup_destructive (prev : List MetrologyRecord)
    (u : Nat → Nat → ℚ) (ri : Nat → Nat → Nat) (ck : Nat → Nat → Nat) :
    (create_metrology_table prev CallResult.ok).2 = [] ∧
    mainRun prev u ri ck = mainRun [] u ri ck ∧
    (mainRun prev u ri ck).table =
      ((List.range 5).map fun i =>
        generate_wafer_metrology_data ("WAFER_" ++ fmt02 (i + 1)) mainLotId 10
          (u i) (ri i) (ck i)).flatten := by
  refine ⟨rfl, rfl, ?_⟩
  show ((List.range 5).map fun i =>
      generate_wafer_metrology_data ("WAFER_" ++ fmt02 (i + 1)) mainLotId 10
        (u i) (ri i) (ck i)).foldl
      (fun t d => (ingest_data_into_snowflake t CallResult.ok d).table) [] = _
  rw [foldl_ingest_table]
  simp

end Metrology
